import Mathlib

/-
Verification of the JSON-to-table flattening and pass/fail normalization
core of `json_dashboard.py`.

The embedding models the Python values handled by the dashboard as a
JSON-like inductive type `Value` (booleans, integers, strings, lists,
string-keyed dicts, None).  Python dicts are modelled as association
lists in insertion order, which matches both JSON-object parsing and the
ordered iteration of `dict.items()` used by the flattener.  String case
operations (`str.lower`, `str.upper`, `str.title`) are modelled on the
ASCII letters, which is the alphabet the dashboard's recognized tokens
("true", "false", "pass", "fail") live in.  Fallible code (key lookups
that raise `KeyError`/`TypeError`) is modelled with `Option`.
-/

namespace JsonDashboard

/-- A JSON-like Python value as manipulated by `json_dashboard.py`:
`None`, `bool`, `int`, `str`, `list`, and string-keyed `dict`
(association list in insertion order). -/
inductive Value where
  | null
  | bool (b : Bool)
  | int (n : Int)
  | str (s : String)
  | list (xs : List Value)
  | dict (kvs : List (String × Value))

/-- Apply a finite character substitution table: the first matching
entry wins, characters absent from the table are unchanged. -/
def applyMap : List (Char × Char) → Char → Char
  | [], c => c
  | p :: rest, c => if c = p.1 then p.2 else applyMap rest c

/-- The 26 ASCII upper-to-lower case mappings. -/
def upperToLower : List (Char × Char) :=
  [('A', 'a'), ('B', 'b'), ('C', 'c'), ('D', 'd'), ('E', 'e'),
   ('F', 'f'), ('G', 'g'), ('H', 'h'), ('I', 'i'), ('J', 'j'),
   ('K', 'k'), ('L', 'l'), ('M', 'm'), ('N', 'n'), ('O', 'o'),
   ('P', 'p'), ('Q', 'q'), ('R', 'r'), ('S', 's'), ('T', 't'),
   ('U', 'u'), ('V', 'v'), ('W', 'w'), ('X', 'x'), ('Y', 'y'),
   ('Z', 'z')]

/-- The 26 ASCII lower-to-upper case mappings. -/
def lowerToUpper : List (Char × Char) :=
  upperToLower.map (fun p => (p.2, p.1))

/-- ASCII lower-casing of one character, as `str.lower` acts on the
ASCII range. -/
def asciiLowerChar (c : Char) : Char :=
  applyMap upperToLower c

/-- ASCII upper-casing of one character, as `str.upper` acts on the
ASCII range. -/
def asciiUpperChar (c : Char) : Char :=
  applyMap lowerToUpper c

/-- Whether a character is an ASCII letter (the "cased" characters of
the model, as used by `str.title`). -/
def isAsciiAlpha (c : Char) : Bool :=
  ('a' ≤ c && c ≤ 'z') || ('A' ≤ c && c ≤ 'Z')

/-- `str.lower` on the ASCII model. -/
def pyLower (s : String) : String :=
  ⟨s.data.map asciiLowerChar⟩

/-- `str.upper` on the ASCII model. -/
def pyUpper (s : String) : String :=
  ⟨s.data.map asciiUpperChar⟩

/-- Helper for `pyTitle`: the boolean records whether the previous
character was cased (a letter). -/
def pyTitleAux : Bool → List Char → List Char
  | _, [] => []
  | prevAlpha, c :: cs =>
    (if isAsciiAlpha c then
       if prevAlpha then asciiLowerChar c else asciiUpperChar c
     else c) :: pyTitleAux (isAsciiAlpha c) cs

/-- `str.title` on the ASCII model: the first letter of every maximal
letter run is upper-cased, the following letters are lower-cased,
non-letters are unchanged. -/
def pyTitle (s : String) : String :=
  ⟨pyTitleAux false s.data⟩

/-- The normalizer defined inside `load_json_data`
(`json_dashboard.py` lines 34-41): booleans become `"Pass"`/`"Fail"`,
strings lower-casing to `"true"`/`"pass"` become `"Pass"`, strings
lower-casing to `"false"`/`"fail"` become `"Fail"`, and everything else
is returned unchanged. -/
def load_json_data.convert_bool_to_pass_fail (value : Value) : Value :=
  match value with
  | .bool b => .str (if b then "Pass" else "Fail")
  | .str s =>
    let lv := pyLower s
    if lv = "true" || lv = "pass" then .str "Pass"
    else if lv = "false" || lv = "fail" then .str "Fail"
    else .str s
  | v => v

/-- The module-level normalizer (`json_dashboard.py` lines 74-86):
booleans become `"Pass"`/`"Fail"`, strings lower-casing to `"true"`
become `"Pass"`, to `"false"` become `"Fail"`, to `"pass"`/`"fail"`
are returned title-cased, and everything else is returned unchanged. -/
def convert_bool_to_pass_fail (value : Value) : Value :=
  match value with
  | .bool b => .str (if b then "Pass" else "Fail")
  | .str s =>
    let lv := pyLower s
    if lv = "true" then .str "Pass"
    else if lv = "false" then .str "Fail"
    else if lv = "pass" || lv = "fail" then .str (pyTitle s)
    else .str s
  | v => v

mutual

/-- Python `repr` of a value (single-quoted strings, `True`/`False`,
`None`, bracketed lists, braced dicts), used by `str` on non-strings. -/
def pyRepr : Value → String
  | .null => "None"
  | .bool b => if b then "True" else "False"
  | .int n => toString n
  | .str s => "\x27" ++ s ++ "\x27"
  | .list xs => "[" ++ String.intercalate ", " (pyReprList xs) ++ "]"
  | .dict kvs => "\x7b" ++ String.intercalate ", " (pyReprPairs kvs) ++ "\x7d"

/-- `pyRepr` of every element of a list. -/
def pyReprList : List Value → List String
  | [] => []
  | v :: vs => pyRepr v :: pyReprList vs

/-- `pyRepr` of every key-value pair of a dict. -/
def pyReprPairs : List (String × Value) → List String
  | [] => []
  | p :: ps => ("\x27" ++ p.1 ++ "\x27: " ++ pyRepr p.2) :: pyReprPairs ps

end

/-- Python `str()` of a value: a string is returned as itself, anything
else is rendered through `pyRepr`. -/
def pyStr : Value → String
  | .str s => s
  | v => pyRepr v

/-- Python subscript `v[k]` for a string key, as an `Option`: a lookup
on a dict, failure (`KeyError`/`TypeError`) on a missing key or a
non-dict value. -/
def Value.getKey? (v : Value) (k : String) : Option Value :=
  match v with
  | .dict kvs => kvs.lookup k
  | _ => none

/-- Extract the underlying strings of a list of values; fails if some
element is not a string (as `str.join` raises `TypeError`). -/
def strList? : List Value → Option (List String)
  | [] => some []
  | .str s :: rest => (strList? rest).map (fun t => s :: t)
  | _ => none

/-- `", ".join(v)` (`json_dashboard.py` line 24): joins a list of
strings; iterating a string joins its characters, iterating a dict
joins its keys; any other value (or a non-string element) raises. -/
def joinComma : Value → Option String
  | .list xs => (strList? xs).map (String.intercalate ", ")
  | .str s => some (String.intercalate ", " (s.data.map (fun c => String.mk [c])))
  | .dict kvs => some (String.intercalate ", " (kvs.map (fun p => p.1)))
  | _ => none

/-- A conditionally emitted column: `if key in result: record[name] = v`
contributes one column when the lookup succeeds and nothing at all when
it does not. -/
def optCol (name : String) (v : Option Value) : List (String × Value) :=
  match v with
  | some x => [(name, x)]
  | none => []

/-- The per-evaluation-kind shaping of `load_json_data`
(`json_dashboard.py` lines 43-67): the columns contributed to the row
by one `(eval_type, result)` pair of `evaluation_results`, applying, in
order: the `decision_accuracy` rule, the `grounded` rule, the
`Eval_Status` rule, the `negation_pass` rule, the generic
one-level dict flattening, and the scalar rule. -/
def flattenEvalResult (eval_type : String) (result : Value) :
    List (String × Value) :=
  if eval_type = "decision_accuracy" then
    [("eval_" ++ eval_type, load_json_data.convert_bool_to_pass_fail result)]
  else
    match result with
    | .dict kvs =>
      match kvs.lookup "grounded" with
      | some g =>
        ("eval_" ++ eval_type, load_json_data.convert_bool_to_pass_fail g)
          :: optCol ("eval_" ++ eval_type ++ "_reason") (kvs.lookup "reason")
      | none =>
        match kvs.lookup "Eval_Status" with
        | some es =>
          ("eval_" ++ eval_type, load_json_data.convert_bool_to_pass_fail es)
            :: (optCol ("eval_" ++ eval_type ++ "_which_one_executed")
                  (kvs.lookup "which_one_executed")
                ++ optCol ("eval_" ++ eval_type ++ "_reason")
                  (kvs.lookup "reason"))
        | none =>
          match kvs.lookup "negation_pass" with
          | some np =>
            ("eval_" ++ eval_type, load_json_data.convert_bool_to_pass_fail np)
              :: (optCol ("eval_" ++ eval_type ++ "_which_one_executed")
                    (kvs.lookup "which_one_executed")
                  ++ optCol ("eval_" ++ eval_type ++ "_reason")
                    (kvs.lookup "reason"))
          | none =>
            kvs.map (fun p =>
              ("eval_" ++ eval_type ++ "_" ++ p.1,
               load_json_data.convert_bool_to_pass_fail p.2))
    | _ => [("eval_" ++ eval_type, load_json_data.convert_bool_to_pass_fail result)]

/-- Flattening of one record (`json_dashboard.py` lines 21-69): the
base columns extracted from `metadata` and `input_data` in the order of
the dict literal at lines 22-32 (with `rationale` defaulting to
`"N/A"` and `jid` stringified and upper-cased), followed by the columns
contributed by each entry of `evaluation_results` in iteration order.
Any missing required key makes the whole record fail. -/
def flattenRecord (item : Value) : Option (List (String × Value)) :=
  match item.getKey? "metadata" with
  | none => none
  | some metadata =>
  match metadata.getKey? "timestamp" with
  | none => none
  | some timestamp =>
  match metadata.getKey? "evaluations_run" with
  | none => none
  | some evaluations_run_val =>
  match joinComma evaluations_run_val with
  | none => none
  | some evaluations_run =>
  match item.getKey? "input_data" with
  | none => none
  | some input_data =>
  match input_data.getKey? "jid" with
  | none => none
  | some jid =>
  match input_data.getKey? "aid" with
  | none => none
  | some aid =>
  match input_data.getKey? "aligned" with
  | none => none
  | some aligned =>
  match input_data.getKey? "gold_aligned" with
  | none => none
  | some gold_aligned =>
  match input_data.getKey? "title" with
  | none => none
  | some title =>
  match item.getKey? "source_file" with
  | none => none
  | some source_file =>
  match item.getKey? "evaluation_results" with
  | some (.dict evalKvs) =>
    some ([("timestamp", timestamp),
           ("evaluations_run", .str evaluations_run),
           ("jid", .str (pyUpper (pyStr jid))),
           ("aid", aid),
           ("aligned", aligned),
           ("gold_aligned", gold_aligned),
           ("title", title),
           ("rationale", (input_data.getKey? "rationale").getD (.str "N/A")),
           ("source_file", source_file)]
          ++ evalKvs.flatMap (fun p => flattenEvalResult p.1 p.2))
  | _ => none

/-- The record loop of `load_json_data` (lines 20-69): one row is
appended per input record, in input order; the first failing record
aborts the whole load. -/
def flattenAll : List Value → Option (List (List (String × Value)))
  | [] => some []
  | item :: rest =>
    match flattenRecord item with
    | none => none
    | some row =>
      match flattenAll rest with
      | none => none
      | some rows => some (row :: rows)

/-- `load_json_data` (lines 8-71): the uploaded file wins over the
default file; when neither is present the data is the empty list; the
parsed data must be a list of records, which are flattened in order. -/
def load_json_data (uploaded_file : Option Value)
    (default_file : Option Value) : Option (List (List (String × Value))) :=
  let data : Value :=
    match uploaded_file with
    | some d => d
    | none =>
      match default_file with
      | some d => d
      | none => .list []
  match data with
  | .list items => flattenAll items
  | _ => none

/-- One of the required keys named by the spec is missing from the
record: `metadata.timestamp`, `input_data.jid`, `input_data.aid`,
`input_data.aligned`, `input_data.gold_aligned`, `input_data.title`,
`evaluation_results`, or `source_file`. -/
def lacksRequiredKey (item : Value) : Bool :=
  ((item.getKey? "metadata").bind (fun md => md.getKey? "timestamp")).isNone
  || ((item.getKey? "input_data").bind (fun d => d.getKey? "jid")).isNone
  || ((item.getKey? "input_data").bind (fun d => d.getKey? "aid")).isNone
  || ((item.getKey? "input_data").bind (fun d => d.getKey? "aligned")).isNone
  || ((item.getKey? "input_data").bind (fun d => d.getKey? "gold_aligned")).isNone
  || ((item.getKey? "input_data").bind (fun d => d.getKey? "title")).isNone
  || (item.getKey? "evaluation_results").isNone
  || (item.getKey? "source_file").isNone

/-- Whether a value is a string. -/
def isStrVal : Value → Bool
  | .str _ => true
  | _ => false

/-- A record shape sufficient for `flattenRecord` to succeed, naming
only required keys: `rationale` and any `reason`/`which_one_executed`
sub-keys are deliberately absent from this condition. -/
def hasAllRequired (item : Value) : Bool :=
  (match item.getKey? "metadata" with
   | some md =>
     (md.getKey? "timestamp").isSome &&
     (match md.getKey? "evaluations_run" with
      | some (.list xs) => xs.all isStrVal
      | _ => false)
   | none => false)
  && (match item.getKey? "input_data" with
      | some d =>
        (d.getKey? "jid").isSome && (d.getKey? "aid").isSome &&
        (d.getKey? "aligned").isSome && (d.getKey? "gold_aligned").isSome &&
        (d.getKey? "title").isSome
      | none => false)
  && (item.getKey? "source_file").isSome
  && (match item.getKey? "evaluation_results" with
      | some (.dict _) => true
      | _ => false)

/-- Whether a value is a boolean or a string (the cases the normalizers
act on; everything else passes through). -/
def isBoolOrStr : Value → Bool
  | .bool _ => true
  | .str _ => true
  | _ => false

/-- A sample `input_data` object (no optional `rationale`). -/
def sampleInputData : List (String × Value) :=
  [("jid", .str "abc"), ("aid", .str "A1"), ("aligned", .bool true),
   ("gold_aligned", .bool false), ("title", .str "A Title")]

/-- A sample well-formed record. -/
def sampleItem : Value :=
  .dict [("metadata",
          .dict [("timestamp", .str "2024-01-01"),
                 ("evaluations_run",
                  .list [.str "groundedness", .str "decision_accuracy"])]),
         ("input_data", .dict sampleInputData),
         ("evaluation_results", .dict [("decision_accuracy", .bool true)]),
         ("source_file", .str "results.json")]

/-- The row `flattenRecord` produces for `sampleItem`. -/
def sampleRow : List (String × Value) :=
  [("timestamp", .str "2024-01-01"),
   ("evaluations_run", .str "groundedness, decision_accuracy"),
   ("jid", .str "ABC"),
   ("aid", .str "A1"),
   ("aligned", .bool true),
   ("gold_aligned", .bool false),
   ("title", .str "A Title"),
   ("rationale", .str "N/A"),
   ("source_file", .str "results.json"),
   ("eval_decision_accuracy", .str "Pass")]

/-- A record identical to `sampleItem` except that `input_data.jid` is
missing. -/
def badItem : Value :=
  .dict [("metadata",
          .dict [("timestamp", .str "2024-01-01"),
                 ("evaluations_run",
                  .list [.str "groundedness", .str "decision_accuracy"])]),
         ("input_data",
          .dict [("aid", .str "A1"), ("aligned", .bool true),
                 ("gold_aligned", .bool false), ("title", .str "A Title")]),
         ("evaluation_results", .dict [("decision_accuracy", .bool true)]),
         ("source_file", .str "results.json")]

lemma applyMap_cases (m : List (Char × Char)) (c : Char) :
    applyMap m c = c ∨ ∃ p ∈ m, c = p.1 ∧ applyMap m c = p.2 := by
  induction m with
  | nil => exact Or.inl rfl
  | cons q rest ih =>
    by_cases hc : c = q.1
    · exact Or.inr ⟨q, List.mem_cons_self q rest, hc, by simp [applyMap, hc]⟩
    · rcases ih with h | ⟨p, hp, hc1, hv⟩
      · exact Or.inl (by simp [applyMap, hc, h])
      · exact Or.inr ⟨p, List.mem_cons_of_mem q hp, hc1, by simp [applyMap, hc, hv]⟩

lemma asciiLowerChar_inv (c d : Char) (h : asciiLowerChar c = d) :
    c = d ∨ c = asciiUpperChar d := by
  unfold asciiLowerChar at h
  unfold asciiUpperChar
  rcases applyMap_cases upperToLower c with h2 | ⟨p, hp, hc, hv⟩
  · exact Or.inl (h2.symm.trans h)
  · have hd : d = p.2 := h.symm.trans hv
    have key : ∀ p ∈ upperToLower, applyMap lowerToUpper p.2 = p.1 := by decide
    exact Or.inr (by rw [hc, hd]; exact (key p hp).symm)

lemma pyTitle_eq_Pass (s : String) (h : pyLower s = "pass") :
    pyTitle s = "Pass" := by
  obtain ⟨l⟩ := s
  have h2 : l.map asciiLowerChar = ['p', 'a', 's', 's'] := congrArg String.data h
  cases l with
  | nil => simp at h2
  | cons c1 t1 =>
  cases t1 with
  | nil => simp at h2
  | cons c2 t2 =>
  cases t2 with
  | nil => simp at h2
  | cons c3 t3 =>
  cases t3 with
  | nil => simp at h2
  | cons c4 t4 =>
  cases t4 with
  | cons c5 t5 => simp at h2
  | nil =>
  simp only [List.map_cons, List.map_nil, List.cons.injEq, and_true] at h2
  obtain ⟨e1, e2, e3, e4⟩ := h2
  rcases asciiLowerChar_inv _ _ e1 with rfl | rfl <;>
    rcases asciiLowerChar_inv _ _ e2 with rfl | rfl <;>
      rcases asciiLowerChar_inv _ _ e3 with rfl | rfl <;>
        rcases asciiLowerChar_inv _ _ e4 with rfl | rfl <;>
          decide

lemma pyTitle_eq_Fail (s : String) (h : pyLower s = "fail") :
    pyTitle s = "Fail" := by
  obtain ⟨l⟩ := s
  have h2 : l.map asciiLowerChar = ['f', 'a', 'i', 'l'] := congrArg String.data h
  cases l with
  | nil => simp at h2
  | cons c1 t1 =>
  cases t1 with
  | nil => simp at h2
  | cons c2 t2 =>
  cases t2 with
  | nil => simp at h2
  | cons c3 t3 =>
  cases t3 with
  | nil => simp at h2
  | cons c4 t4 =>
  cases t4 with
  | cons c5 t5 => simp at h2
  | nil =>
  simp only [List.map_cons, List.map_nil, List.cons.injEq, and_true] at h2
  obtain ⟨e1, e2, e3, e4⟩ := h2
  rcases asciiLowerChar_inv _ _ e1 with rfl | rfl <;>
    rcases asciiLowerChar_inv _ _ e2 with rfl | rfl <;>
      rcases asciiLowerChar_inv _ _ e3 with rfl | rfl <;>
        rcases asciiLowerChar_inv _ _ e4 with rfl | rfl <;>
          decide

/-- The two textually different normalizers compute the same function:
`value.title()` applied to a case-variant of "pass"/"fail" is exactly
"Pass"/"Fail", which is what the inner normalizer returns directly. -/
lemma convert_bool_to_pass_fail_eq :
    load_json_data.convert_bool_to_pass_fail = convert_bool_to_pass_fail := by
  funext v
  cases v with
  | str s =>
    simp only [load_json_data.convert_bool_to_pass_fail, convert_bool_to_pass_fail]
    by_cases h1 : pyLower s = "true"
    · simp [h1]
    · by_cases h2 : pyLower s = "pass"
      · simp [h1, h2, pyTitle_eq_Pass s h2]
      · by_cases h3 : pyLower s = "false"
        · simp [h1, h2, h3]
        · by_cases h4 : pyLower s = "fail"
          · simp [h1, h2, h3, h4, pyTitle_eq_Fail s h4]
          · simp [h1, h2, h3, h4]
  | null => rfl
  | bool b => rfl
  | int n => rfl
  | list xs => rfl
  | dict kvs => rfl

/-- Successful flattening of a record determines all required lookups
and the exact shape of the produced row. -/
lemma flattenRecord_some (item : Value) (row : List (String × Value))
    (h : flattenRecord item = some row) :
    ∃ metadata timestamp evaluations_run_val evaluations_run input_data jid aid
      aligned gold_aligned title source_file evalKvs,
      item.getKey? "metadata" = some metadata ∧
      metadata.getKey? "timestamp" = some timestamp ∧
      metadata.getKey? "evaluations_run" = some evaluations_run_val ∧
      joinComma evaluations_run_val = some evaluations_run ∧
      item.getKey? "input_data" = some input_data ∧
      input_data.getKey? "jid" = some jid ∧
      input_data.getKey? "aid" = some aid ∧
      input_data.getKey? "aligned" = some aligned ∧
      input_data.getKey? "gold_aligned" = some gold_aligned ∧
      input_data.getKey? "title" = some title ∧
      item.getKey? "source_file" = some source_file ∧
      item.getKey? "evaluation_results" = some (.dict evalKvs) ∧
      row = [("timestamp", timestamp),
             ("evaluations_run", .str evaluations_run),
             ("jid", .str (pyUpper (pyStr jid))),
             ("aid", aid),
             ("aligned", aligned),
             ("gold_aligned", gold_aligned),
             ("title", title),
             ("rationale", (input_data.getKey? "rationale").getD (.str "N/A")),
             ("source_file", source_file)]
            ++ evalKvs.flatMap (fun p => flattenEvalResult p.1 p.2) := by
  unfold flattenRecord at h
  cases hm : item.getKey? "metadata" with
  | none => simp [hm] at h
  | some metadata =>
  simp only [hm] at h
  cases ht : metadata.getKey? "timestamp" with
  | none => simp [ht] at h
  | some timestamp =>
  simp only [ht] at h
  cases he : metadata.getKey? "evaluations_run" with
  | none => simp [he] at h
  | some evaluations_run_val =>
  simp only [he] at h
  cases hj : joinComma evaluations_run_val with
  | none => simp [hj] at h
  | some evaluations_run =>
  simp only [hj] at h
  cases hi : item.getKey? "input_data" with
  | none => simp [hi] at h
  | some input_data =>
  simp only [hi] at h
  cases hjid : input_data.getKey? "jid" with
  | none => simp [hjid] at h
  | some jid =>
  simp only [hjid] at h
  cases haid : input_data.getKey? "aid" with
  | none => simp [haid] at h
  | some aid =>
  simp only [haid] at h
  cases hal : input_data.getKey? "aligned" with
  | none => simp [hal] at h
  | some aligned =>
  simp only [hal] at h
  cases hgold : input_data.getKey? "gold_aligned" with
  | none => simp [hgold] at h
  | some gold_aligned =>
  simp only [hgold] at h
  cases htitle : input_data.getKey? "title" with
  | none => simp [htitle] at h
  | some title =>
  simp only [htitle] at h
  cases hsrc : item.getKey? "source_file" with
  | none => simp [hsrc] at h
  | some source_file =>
  simp only [hsrc] at h
  cases hev : item.getKey? "evaluation_results" with
  | none => simp [hev] at h
  | some evaluation_results =>
  simp only [hev] at h
  cases evaluation_results with
  | dict evalKvs =>
    refine ⟨metadata, timestamp, evaluations_run_val, evaluations_run,
      input_data, jid, aid, aligned, gold_aligned, title, source_file, evalKvs,
      rfl, ht, he, hj, rfl, hjid, haid, hal, hgold, htitle, rfl, rfl, ?_⟩
    simp only at h
    injection h with h2
    exact h2.symm
  | null => simp at h
  | bool b => simp at h
  | int n => simp at h
  | str s => simp at h
  | list xs => simp at h

/-- One failing record anywhere in the input makes the whole load fail. -/
lemma flattenAll_eq_none (items : List Value) (item : Value)
    (hmem : item ∈ items) (hfr : flattenRecord item = none) :
    flattenAll items = none := by
  induction items with
  | nil => cases hmem
  | cons x rest ih =>
    rcases List.mem_cons.mp hmem with rfl | hmem2
    · simp [flattenAll, hfr]
    · have hrest := ih hmem2
      cases hx : flattenRecord x with
      | none => simp [flattenAll, hx]
      | some row => simp [flattenAll, hx, hrest]

/-- A record missing any of the spec's required keys fails to flatten. -/
lemma flattenRecord_eq_none_of_lacks (item : Value)
    (h : lacksRequiredKey item = true) : flattenRecord item = none := by
  cases hfr : flattenRecord item with
  | none => rfl
  | some row =>
    exfalso
    obtain ⟨metadata, timestamp, erv, er, input_data, jid, aid, aligned, gold,
      title, src, evalKvs, hm, ht, he, hj, hi, hjid, haid, hal, hgold, htitle,
      hsrc, hev, hrow⟩ := flattenRecord_some item row hfr
    simp [lacksRequiredKey, hm, ht, hi, hjid, haid, hal, hgold, htitle,
      hsrc, hev] at h

/-- A list of string values yields a string list. -/
lemma strList?_isSome (xs : List Value) (h : xs.all isStrVal = true) :
    ∃ l, strList? xs = some l := by
  induction xs with
  | nil => exact ⟨[], rfl⟩
  | cons v rest ih =>
    simp only [List.all_cons, Bool.and_eq_true] at h
    obtain ⟨hv, hrest⟩ := h
    obtain ⟨l, hl⟩ := ih hrest
    cases v with
    | str s => exact ⟨s :: l, by simp [strList?, hl]⟩
    | null => simp [isStrVal] at hv
    | bool b => simp [isStrVal] at hv
    | int n => simp [isStrVal] at hv
    | list ys => simp [isStrVal] at hv
    | dict kvs => simp [isStrVal] at hv

/-- A record with all required keys flattens successfully, and in
particular the optional `rationale` and `reason` keys are never needed. -/
lemma flattenRecord_isSome_of_hasAllRequired (item : Value)
    (h : hasAllRequired item = true) : (flattenRecord item).isSome = true := by
  unfold hasAllRequired at h
  simp only [Bool.and_eq_true] at h
  obtain ⟨⟨⟨hM, hI⟩, hS⟩, hE⟩ := h
  cases hm : item.getKey? "metadata" with
  | none => simp [hm] at hM
  | some metadata =>
  simp only [hm, Bool.and_eq_true] at hM
  obtain ⟨hMts, hMer⟩ := hM
  obtain ⟨timestamp, hts⟩ := Option.isSome_iff_exists.mp hMts
  cases her : metadata.getKey? "evaluations_run" with
  | none => simp [her] at hMer
  | some erv =>
  simp only [her] at hMer
  cases erv with
  | null => simp at hMer
  | bool b => simp at hMer
  | int n => simp at hMer
  | str s => simp at hMer
  | dict kvs => simp at hMer
  | list xs =>
  obtain ⟨l, hl⟩ := strList?_isSome xs hMer
  have hjoin : joinComma (.list xs) = some (String.intercalate ", " l) := by
    simp [joinComma, hl]
  cases hi : item.getKey? "input_data" with
  | none => simp [hi] at hI
  | some input_data =>
  simp only [hi, Bool.and_eq_true] at hI
  obtain ⟨⟨⟨⟨hjid, haid⟩, hal⟩, hgold⟩, htitle⟩ := hI
  obtain ⟨jid, hjid2⟩ := Option.isSome_iff_exists.mp hjid
  obtain ⟨aid, haid2⟩ := Option.isSome_iff_exists.mp haid
  obtain ⟨aligned, hal2⟩ := Option.isSome_iff_exists.mp hal
  obtain ⟨gold, hgold2⟩ := Option.isSome_iff_exists.mp hgold
  obtain ⟨title, htitle2⟩ := Option.isSome_iff_exists.mp htitle
  obtain ⟨src, hsrc⟩ := Option.isSome_iff_exists.mp hS
  cases hev : item.getKey? "evaluation_results" with
  | none => simp [hev] at hE
  | some er =>
  simp only [hev] at hE
  cases er with
  | null => simp at hE
  | bool b => simp at hE
  | int n => simp at hE
  | str s => simp at hE
  | list ys => simp at hE
  | dict evalKvs =>
  simp [flattenRecord, hm, hts, her, hjoin, hi, hjid2, haid2, hal2, hgold2,
    htitle2, hsrc, hev]

/-- The module-level normalizer is idempotent. -/
lemma convert_bool_to_pass_fail_idem (w : Value) :
    convert_bool_to_pass_fail (convert_bool_to_pass_fail w) =
      convert_bool_to_pass_fail w := by
  cases w with
  | bool b => cases b <;> rfl
  | null => rfl
  | int n => rfl
  | list xs => rfl
  | dict kvs => rfl
  | str s =>
    by_cases h1 : pyLower s = "true"
    · have hs : convert_bool_to_pass_fail (.str s) = .str "Pass" := by
        simp [convert_bool_to_pass_fail, h1]
      rw [hs]
      rfl
    · by_cases h3 : pyLower s = "false"
      · have hs : convert_bool_to_pass_fail (.str s) = .str "Fail" := by
          simp [convert_bool_to_pass_fail, h1, h3]
        rw [hs]
        rfl
      · by_cases h2 : pyLower s = "pass"
        · have hs : convert_bool_to_pass_fail (.str s) = .str "Pass" := by
            simp [convert_bool_to_pass_fail, h1, h3, h2, pyTitle_eq_Pass s h2]
          rw [hs]
          rfl
        · by_cases h4 : pyLower s = "fail"
          · have hs : convert_bool_to_pass_fail (.str s) = .str "Fail" := by
              simp [convert_bool_to_pass_fail, h1, h3, h2, h4,
                pyTitle_eq_Fail s h4]
            rw [hs]
            rfl
          · have hs : convert_bool_to_pass_fail (.str s) = .str s := by
              simp [convert_bool_to_pass_fail, h1, h2, h3, h4]
            rw [hs]
            exact hs

/-- Claim C1: both normalizers map the boolean true and every
case-variant of the strings "true" and "pass" to exactly "Pass", the
boolean false and every case-variant of "false" and "fail" to exactly
"Fail", and return every other string and every non-boolean, non-string
value unchanged. -/
theorem C1_normalizer_canonicalizes :
    (load_json_data.convert_bool_to_pass_fail (.bool true) = .str "Pass" ∧
     convert_bool_to_pass_fail (.bool true) = .str "Pass") ∧
    (load_json_data.convert_bool_to_pass_fail (.bool false) = .str "Fail" ∧
     convert_bool_to_pass_fail (.bool false) = .str "Fail") ∧
    (∀ s : String, pyLower s = "true" ∨ pyLower s = "pass" →
      load_json_data.convert_bool_to_pass_fail (.str s) = .str "Pass" ∧
      convert_bool_to_pass_fail (.str s) = .str "Pass") ∧
    (∀ s : String, pyLower s = "false" ∨ pyLower s = "fail" →
      load_json_data.convert_bool_to_pass_fail (.str s) = .str "Fail" ∧
      convert_bool_to_pass_fail (.str s) = .str "Fail") ∧
    (∀ s : String, pyLower s ≠ "true" → pyLower s ≠ "pass" →
      pyLower s ≠ "false" → pyLower s ≠ "fail" →
      load_json_data.convert_bool_to_pass_fail (.str s) = .str s ∧
      convert_bool_to_pass_fail (.str s) = .str s) ∧
    (∀ v : Value, isBoolOrStr v = false →
      load_json_data.convert_bool_to_pass_fail v = v ∧
      convert_bool_to_pass_fail v = v) := by
  refine ⟨⟨rfl, rfl⟩, ⟨rfl, rfl⟩, ?_, ?_, ?_, ?_⟩
  · intro s h
    rcases h with h | h
    · exact ⟨by simp [load_json_data.convert_bool_to_pass_fail, h],
        by simp [convert_bool_to_pass_fail, h]⟩
    · exact ⟨by simp [load_json_data.convert_bool_to_pass_fail, h],
        by simp [convert_bool_to_pass_fail, h, pyTitle_eq_Pass s h]⟩
  · intro s h
    rcases h with h | h
    · exact ⟨by simp [load_json_data.convert_bool_to_pass_fail, h],
        by simp [convert_bool_to_pass_fail, h]⟩
    · exact ⟨by simp [load_json_data.convert_bool_to_pass_fail, h],
        by simp [convert_bool_to_pass_fail, h, pyTitle_eq_Fail s h]⟩
  · intro s h1 h2 h3 h4
    exact ⟨by simp [load_json_data.convert_bool_to_pass_fail, h1, h2, h3, h4],
      by simp [convert_bool_to_pass_fail, h1, h2, h3, h4]⟩
  · intro v hv
    cases v with
    | bool b => simp [isBoolOrStr] at hv
    | str s => simp [isBoolOrStr] at hv
    | null => exact ⟨rfl, rfl⟩
    | int n => exact ⟨rfl, rfl⟩
    | list xs => exact ⟨rfl, rfl⟩
    | dict kvs => exact ⟨rfl, rfl⟩

/-- Witness for C1 at concrete inputs. -/
theorem C1_normalizer_canonicalizes_witness :
    load_json_data.convert_bool_to_pass_fail (.str "pAsS") = .str "Pass" ∧
    convert_bool_to_pass_fail (.str "FaIl") = .str "Fail" ∧
    load_json_data.convert_bool_to_pass_fail (.str "maybe") = .str "maybe" ∧
    convert_bool_to_pass_fail (.int 7) = .int 7 :=
  ⟨(C1_normalizer_canonicalizes.2.2.1 "pAsS" (Or.inr (by decide))).1,
   (C1_normalizer_canonicalizes.2.2.2.1 "FaIl" (Or.inr (by decide))).2,
   (C1_normalizer_canonicalizes.2.2.2.2.1 "maybe"
     (by decide) (by decide) (by decide) (by decide)).1,
   (C1_normalizer_canonicalizes.2.2.2.2.2 (.int 7) (by decide)).2⟩

/-- Claim C2: for a kind other than "decision_accuracy" whose result is
a mapping containing the key "grounded", the flattener emits
`eval_<kind>` = normalize(result["grounded"]) and, exactly when
"reason" is present, `eval_<kind>_reason` = result["reason"] unchanged;
this holds regardless of any other keys of the mapping (in particular
when "Eval_Status" or "negation_pass" is also present), so the
"grounded" rule wins in the stated precedence order. -/
theorem C2_grounded_rule_precedence :
    ∀ (eval_type : String) (kvs : List (String × Value)) (g : Value),
      eval_type ≠ "decision_accuracy" →
      kvs.lookup "grounded" = some g →
      flattenEvalResult eval_type (.dict kvs) =
        ("eval_" ++ eval_type, load_json_data.convert_bool_to_pass_fail g)
          :: optCol ("eval_" ++ eval_type ++ "_reason")
               (kvs.lookup "reason") := by
  intro eval_type kvs g hne hg
  simp [flattenEvalResult, hne, hg]

/-- Witness for C2: a grounded result that also carries an
"Eval_Status" key is still shaped by the grounded rule. -/
theorem C2_grounded_rule_precedence_witness :
    flattenEvalResult "groundedness"
        (.dict [("grounded", .bool false),
                ("reason", .str "missing citation"),
                ("Eval_Status", .str "Pass")]) =
      [("eval_groundedness", .str "Fail"),
       ("eval_groundedness_reason", .str "missing citation")] := by
  have h := C2_grounded_rule_precedence "groundedness"
    [("grounded", .bool false), ("reason", .str "missing citation"),
     ("Eval_Status", .str "Pass")] (.bool false) (by decide) rfl
  rw [h]
  rfl

/-- Claim C3: the kind "decision_accuracy" always yields exactly the
one column `eval_decision_accuracy` = normalize(result), whatever the
shape of the result, and no `_reason`/`_which_one_executed` column. -/
theorem C3_decision_accuracy_column :
    ∀ result : Value,
      flattenEvalResult "decision_accuracy" result =
        [("eval_decision_accuracy",
          load_json_data.convert_bool_to_pass_fail result)] :=
  fun _ => rfl

/-- Claim C4: a result mapping containing none of the keys "grounded",
"Eval_Status", "negation_pass" (for a kind other than
"decision_accuracy") is flattened one level deep: one column
`eval_<kind>_<subkey>` = normalize(subvalue) per entry; and the
normalizer passes nested mappings through unchanged, so deeper levels
are not flattened. -/
theorem C4_unrecognized_dict_flatten :
    (∀ (eval_type : String) (kvs : List (String × Value)),
      eval_type ≠ "decision_accuracy" →
      kvs.lookup "grounded" = none →
      kvs.lookup "Eval_Status" = none →
      kvs.lookup "negation_pass" = none →
      flattenEvalResult eval_type (.dict kvs) =
        kvs.map (fun p =>
          ("eval_" ++ eval_type ++ "_" ++ p.1,
           load_json_data.convert_bool_to_pass_fail p.2))) ∧
    (∀ kvs2 : List (String × Value),
      load_json_data.convert_bool_to_pass_fail (.dict kvs2) = .dict kvs2) := by
  constructor
  · intro eval_type kvs hne hg hes hnp
    simp [flattenEvalResult, hne, hg, hes, hnp]
  · intro kvs2
    rfl

/-- Witness for C4: a custom mapping with a nested dict subvalue. -/
theorem C4_unrecognized_dict_flatten_witness :
    flattenEvalResult "custom_check"
        (.dict [("score", .int 1), ("notes", .str "ok"),
                ("extra", .dict [("deep", .bool true)])]) =
      [("eval_custom_check_score", .int 1),
       ("eval_custom_check_notes", .str "ok"),
       ("eval_custom_check_extra", .dict [("deep", .bool true)])] := by
  have h := C4_unrecognized_dict_flatten.1 "custom_check"
    [("score", .int 1), ("notes", .str "ok"),
     ("extra", .dict [("deep", .bool true)])] (by decide) rfl rfl rfl
  rw [h]
  rfl

/-- Claim C5: a successful load yields exactly one row per input
record, in input order, with no drops, duplicates, or sorting. -/
theorem C5_row_count_and_order :
    ∀ (items : List Value) (rows : List (List (String × Value))),
      flattenAll items = some rows →
      rows.length = items.length ∧
      ∀ (i : Nat) (hi : i < items.length) (hr : i < rows.length),
        flattenRecord (items.get ⟨i, hi⟩) = some (rows.get ⟨i, hr⟩) := by
  intro items
  induction items with
  | nil =>
    intro rows h
    have hr : rows = [] := by simpa [flattenAll] using h.symm
    subst hr
    exact ⟨rfl, fun i hi _ => absurd hi (Nat.not_lt_zero i)⟩
  | cons item rest ih =>
    intro rows h
    cases hfr : flattenRecord item with
    | none => simp [flattenAll, hfr] at h
    | some row =>
      cases hfa : flattenAll rest with
      | none => simp [flattenAll, hfr, hfa] at h
      | some rows2 =>
        simp only [flattenAll, hfr, hfa] at h
        injection h with h2
        subst h2
        obtain ⟨hlen, hget⟩ := ih rows2 hfa
        refine ⟨by simp [hlen], ?_⟩
        intro i hi hr
        cases i with
        | zero => simpa using hfr
        | succ n =>
          have hi2 : n < rest.length := Nat.lt_of_succ_lt_succ hi
          have hr2 : n < rows2.length := Nat.lt_of_succ_lt_succ hr
          simpa using hget n hi2 hr2

/-- Witness for C5 on a one-record input. -/
theorem C5_row_count_and_order_witness :
    ([sampleRow].length = [sampleItem].length) ∧
      flattenRecord ([sampleItem].get ⟨0, by decide⟩) =
        some ([sampleRow].get ⟨0, by decide⟩) := by
  have h := C5_row_count_and_order [sampleItem] [sampleRow] rfl
  exact ⟨h.1, h.2 0 (by decide) (by decide)⟩

/-- Claim C6: a record missing any required key (`metadata.timestamp`,
`input_data.jid`, `input_data.aid`, `input_data.aligned`,
`input_data.gold_aligned`, `input_data.title`, `evaluation_results`,
`source_file`) makes the whole load fail with no partial table, while
records with all required keys flatten successfully even without the
optional `rationale` or `reason` keys. -/
theorem C6_required_and_optional_keys :
    (∀ (items : List Value) (item : Value), item ∈ items →
      lacksRequiredKey item = true → flattenAll items = none) ∧
    (∀ item : Value, hasAllRequired item = true →
      (flattenRecord item).isSome = true) :=
  ⟨fun items item hmem hlacks =>
    flattenAll_eq_none items item hmem
      (flattenRecord_eq_none_of_lacks item hlacks),
   fun item h => flattenRecord_isSome_of_hasAllRequired item h⟩

/-- Witness for C6: a record missing `input_data.jid` aborts the load;
the sample record (with no `rationale`) loads fine. -/
theorem C6_required_and_optional_keys_witness :
    flattenAll [badItem] = none ∧ (flattenRecord sampleItem).isSome = true :=
  ⟨C6_required_and_optional_keys.1 [badItem] badItem
      (List.mem_singleton.mpr rfl) rfl,
   C6_required_and_optional_keys.2 sampleItem rfl⟩

/-- Claim C7: the `jid` column of a flattened row is the upper-cased
input `jid`, whatever the input casing. -/
theorem C7_jid_uppercase :
    ∀ (item : Value) (row : List (String × Value)) (input_data : Value)
      (s : String),
      flattenRecord item = some row →
      item.getKey? "input_data" = some input_data →
      input_data.getKey? "jid" = some (.str s) →
      row.lookup "jid" = some (.str (pyUpper s)) := by
  intro item row input_data s hfr hid hjid
  obtain ⟨metadata, timestamp, erv, er, input_data2, jid, aid, aligned, gold,
    title, src, evalKvs, hm, ht, he, hj, hi2, hjid2, haid, hal, hgold, htitle,
    hsrc, hev, hrow⟩ := flattenRecord_some item row hfr
  rw [hid] at hi2
  injection hi2 with hi3
  subst hi3
  rw [hjid] at hjid2
  injection hjid2 with hjid3
  subst hjid3
  subst hrow
  rfl

/-- Witness for C7 on the sample record (lower-case input jid). -/
theorem C7_jid_uppercase_witness :
    sampleRow.lookup "jid" = some (.str (pyUpper "abc")) :=
  C7_jid_uppercase sampleItem sampleRow (.dict sampleInputData) "abc"
    rfl rfl rfl

/-- Claim C8: with no uploaded file and no default file, the load
yields an empty table, not an error. -/
theorem C8_empty_load : load_json_data none none = some [] := rfl

/-- Claim C9 (amended): the two normalization call sites are
extensionally equal; on every case-variant of "pass"/"fail" the inner
normalizer returns the literal "Pass"/"Fail" and the module-level one
returns the title-cased input, which is the same string. -/
theorem C9_call_sites_agree :
    (∀ s : String, pyLower s = "pass" →
      load_json_data.convert_bool_to_pass_fail (.str s) = .str "Pass" ∧
      convert_bool_to_pass_fail (.str s) = .str (pyTitle s) ∧
      pyTitle s = "Pass") ∧
    (∀ s : String, pyLower s = "fail" →
      load_json_data.convert_bool_to_pass_fail (.str s) = .str "Fail" ∧
      convert_bool_to_pass_fail (.str s) = .str (pyTitle s) ∧
      pyTitle s = "Fail") ∧
    load_json_data.convert_bool_to_pass_fail = convert_bool_to_pass_fail := by
  refine ⟨?_, ?_, convert_bool_to_pass_fail_eq⟩
  · intro s h
    exact ⟨by simp [load_json_data.convert_bool_to_pass_fail, h],
      by simp [convert_bool_to_pass_fail, h], pyTitle_eq_Pass s h⟩
  · intro s h
    exact ⟨by simp [load_json_data.convert_bool_to_pass_fail, h],
      by simp [convert_bool_to_pass_fail, h], pyTitle_eq_Fail s h⟩

/-- Counterexample to Claim C9 as stated: the flattener-local and the
module-level normalizers do not differ anywhere; they are extensionally
equal, so no case-variant of "pass"/"fail" distinguishes them. -/
theorem C9_call_sites_counterexample :
    (load_json_data.convert_bool_to_pass_fail = convert_bool_to_pass_fail) ∧
    ¬ ∃ s : String, (pyLower s = "pass" ∨ pyLower s = "fail") ∧
        load_json_data.convert_bool_to_pass_fail (.str s) ≠
          convert_bool_to_pass_fail (.str s) := by
  refine ⟨convert_bool_to_pass_fail_eq, ?_⟩
  rintro ⟨s, _, hne⟩
  exact hne (congrFun convert_bool_to_pass_fail_eq (.str s))

/-- Witness for C9 at concrete case-variants of "pass". -/
theorem C9_call_sites_agree_witness :
    load_json_data.convert_bool_to_pass_fail (.str "pass") = .str "Pass" ∧
    convert_bool_to_pass_fail (.str "pAsS") = .str (pyTitle "pAsS") ∧
    pyTitle "pAsS" = "Pass" :=
  ⟨(C9_call_sites_agree.1 "pass" (by decide)).1,
   (C9_call_sites_agree.1 "pAsS" (by decide)).2.1,
   (C9_call_sites_agree.1 "pAsS" (by decide)).2.2⟩

/-- Claim C10: the normalizer is idempotent: re-applying the
module-level normalizer to any value — in particular to values already
normalized by the flattener, as the detail view does — changes
nothing. -/
theorem C10_normalizer_idempotent :
    ∀ v : Value,
      convert_bool_to_pass_fail (convert_bool_to_pass_fail v) =
        convert_bool_to_pass_fail v ∧
      convert_bool_to_pass_fail (load_json_data.convert_bool_to_pass_fail v) =
        load_json_data.convert_bool_to_pass_fail v :=
  fun v => ⟨convert_bool_to_pass_fail_idem v,
    by rw [convert_bool_to_pass_fail_eq]
       exact convert_bool_to_pass_fail_idem v⟩

end JsonDashboard
